/-
Verification of the security / resilience layer of the whatsapp-attendance-bot
repository: a shallow embedding in Lean 4 of the RateLimiter
(src/middleware/rateLimiter.js), the ErrorHandler circuit breaker and error
classifier (src/middleware/errorHandler.js) and the SecurityManager
(src/middleware/securityManager.js), together with proofs of the behavioural
claims stated in the specification.

Modelling conventions:
- JS `Date.now()` is an explicit `now : Nat` argument (milliseconds).
- A JS `Map` is an insertion-ordered association list `List (K × V)`;
  `mget`/`mset`/`mdel` mirror `Map.get`/`Map.set`/`Map.delete`.
- Randomness (UUIDs, IV bytes) and external crypto primitives are explicit
  arguments, since they come from `crypto`, an external collaborator.
- JS numbers holding timestamps / counters are `Nat`; all subtractions in the
  source compare non-negative quantities, and the truncated `Nat`
  subtraction of Lean agrees with the JS comparisons on every path (noted inline
  where it matters).
-/
import Mathlib

/-! ## JS `Map` as an insertion-ordered association list -/

/-- `Map.get k`: the value stored at `k`, if any. -/
def mget [BEq K] (m : List (K × V)) (k : K) : Option V :=
  (m.find? (fun p => p.fst == k)).map (·.snd)

/-- `Map.set k v`: replace in place if the key is present, else append
(JS `Map` preserves insertion order and keeps keys unique). -/
def mset [BEq K] (m : List (K × V)) (k : K) (v : V) : List (K × V) :=
  if (m.find? (fun p => p.fst == k)).isSome then
    m.map (fun p => if p.fst == k then (k, v) else p)
  else
    m ++ [(k, v)]

/-- `Map.delete k`. -/
def mdel [BEq K] (m : List (K × V)) (k : K) : List (K × V) :=
  m.filter (fun p => !(p.fst == k))

theorem mget_mset_self [BEq K] [LawfulBEq K] (m : List (K × V)) (k : K) (v : V) :
    mget (mset m k v) k = some v := by
  induction m with
  | nil => simp [mget, mset]
  | cons p t ih =>
    by_cases hp : p.fst == k
    · simp [mget, mset, List.find?_cons, hp]
    · have hfind : List.find? (fun q => q.fst == k) (p :: t)
          = List.find? (fun q => q.fst == k) t :=
        List.find?_cons_of_neg _ (by simpa using hp)
      unfold mset at ih ⊢
      rw [hfind]
      by_cases ht : (List.find? (fun q => q.fst == k) t).isSome = true
      · rw [if_pos ht] at ih ⊢
        unfold mget at ih ⊢
        simp only [List.map_cons, if_neg hp]
        rw [List.find?_cons_of_neg (p := fun q : K × V => q.fst == k) _ hp]
        exact ih
      · rw [if_neg ht] at ih ⊢
        unfold mget at ih ⊢
        rw [List.cons_append,
          List.find?_cons_of_neg (p := fun q : K × V => q.fst == k) _ hp]
        exact ih

theorem mget_mdel_self [BEq K] [LawfulBEq K] (m : List (K × V)) (k : K) :
    mget (mdel m k) k = none := by
  unfold mget mdel
  induction m with
  | nil => simp
  | cons p t ih =>
    by_cases hp : p.fst == k
    · simp only [List.filter, hp, Bool.not_true]
      exact ih
    · simp only [List.filter, hp, Bool.not_false]
      rw [List.find?_cons_of_neg]
      · exact ih
      · simpa using hp

/-- JS `array.slice(-n)`: the most recent `n` elements.  JS quirk: `-0 === 0`,
so `slice(-0)` returns the whole array; we reproduce that for `n = 0`. -/
def jsSliceLast (l : List α) (n : Nat) : List α :=
  if n = 0 then l else l.drop (l.length - n)

theorem getLast?_jsSliceLast_append (l : List α) (e : α) (n : Nat) :
    (jsSliceLast (l ++ [e]) n).getLast? = some e := by
  unfold jsSliceLast
  by_cases h : n = 0
  · simp [h]
  · simp only [h, if_false]
    rcases Nat.lt_or_ge (l.length + 1) n with hlt | hge
    · rw [List.length_append]
      simp only [List.length_singleton]
      rw [Nat.sub_eq_zero_of_le (Nat.le_of_lt hlt)]
      simp
    · have hle : (l ++ [e]).length - n ≤ l.length := by
        rw [List.length_append]; simp only [List.length_singleton]; omega
      rw [List.drop_append_of_le_length hle]
      simp

/-- JS `haystack.includes(needle)` on character lists. -/
def listIncludes [BEq α] (hay needle : List α) : Bool :=
  match hay with
  | [] => needle.isEmpty
  | _ :: t => needle.isPrefixOf hay || listIncludes t needle

/-- JS `String.prototype.includes`. -/
def strIncludes (hay needle : String) : Bool :=
  listIncludes hay.data needle.data

/-- JS `String.prototype.toLowerCase` (ASCII, character by character). -/
def jsToLower (s : String) : String :=
  ⟨s.data.map Char.toLower⟩

/-! ## RateLimiter (src/middleware/rateLimiter.js)

`limits` and `windows` are the constructor tables (window values in seconds,
as in the source); the store maps `userId:type` keys to timestamp lists. -/

structure RLConfig where
  limits : List (String × Nat)
  windows : List (String × Nat)

/-- Constructor defaults: commands 10/60s, messages 20/60s,
registrations 5/3600s, subjects 20/3600s. -/
def rlDefault : RLConfig :=
  { limits := [("commands", 10), ("messages", 20), ("registrations", 5), ("subjects", 20)],
    windows := [("commands", 60), ("messages", 60), ("registrations", 3600), ("subjects", 3600)] }

/-- `RateLimiter.isRateLimited(userId, type)`: prune entries outside the
window, deny without recording when the pruned count reaches the limit,
otherwise record `now` and admit.  The guard `!userId || !this.limits[type]`
is falsy for the empty string, an absent type, and a zero limit.  Note that
on the deny path the source does not write the pruned list back. -/
def isRateLimited (rl : RLConfig) (now : Nat) (store : List (String × List Nat))
    (userId ty : String) : Bool × List (String × List Nat) :=
  if userId == "" || (mget rl.limits ty).getD 0 == 0 then
    (false, store)
  else
    let key := userId ++ ":" ++ ty
    let window := (mget rl.windows ty).getD 0 * 1000
    let limit := (mget rl.limits ty).getD 0
    let requests := (mget store key).getD []
    let requests := requests.filter (fun t => now - t < window)
    if requests.length ≥ limit then
      (true, store)
    else
      (false, mset store key (requests ++ [now]))

/-- A sequence of `isRateLimited` calls, one per timestamp, threading the
store; returns the per-call verdicts and the final store. -/
def rlRunCalls (rl : RLConfig) (userId ty : String)
    (store : List (String × List Nat)) : List Nat → List Bool × List (String × List Nat)
  | [] => ([], store)
  | t :: ts =>
    let step := isRateLimited rl t store userId ty
    let rest := rlRunCalls rl userId ty step.snd ts
    (step.fst :: rest.fst, rest.snd)

theorem rlRunCalls_go (rl : RLConfig) (userId ty : String) (L W : Nat)
    (hu : (userId == "") = false)
    (hLd : (mget rl.limits ty).getD 0 = L)
    (hWd : (mget rl.windows ty).getD 0 * 1000 = W)
    (hL : L ≠ 0) :
    ∀ (times : List Nat) (store : List (String × List Nat)) (r : List Nat),
      (mget store (userId ++ ":" ++ ty)).getD [] = r →
      (∀ s ∈ r, ∀ u ∈ times, u - s < W) →
      (∀ u ∈ times, ∀ v ∈ times, v - u < W) →
      (rlRunCalls rl userId ty store times).fst
          = (List.range times.length).map (fun i => decide (L ≤ r.length + i))
        ∧ (mget (rlRunCalls rl userId ty store times).snd (userId ++ ":" ++ ty)).getD []
          = r ++ times.take (L - r.length) := by
  intro times
  induction times with
  | nil =>
    intro store r hr _ _
    simp [rlRunCalls, hr]
  | cons t ts ih =>
    intro store r hr H1 H2
    have hguard : (userId == "" || (L == 0 : Bool)) = false := by
      rw [hu]
      simp [hL]
    have hfilter : r.filter (fun s => decide (t - s < W)) = r := by
      rw [List.filter_eq_self]
      intro s hs
      exact decide_eq_true (H1 s hs t (List.mem_cons_self _ _))
    have hstep : isRateLimited rl t store userId ty
        = (if L ≤ r.length then (true, store)
           else (false, mset store (userId ++ ":" ++ ty) (r ++ [t]))) := by
      simp only [isRateLimited, hguard, Bool.false_eq_true, if_false, hr, hWd, hLd,
        hfilter, ge_iff_le]
    by_cases hcase : L ≤ r.length
    · rw [if_pos hcase] at hstep
      obtain ⟨ihf, ihs⟩ := ih store r hr
        (fun s hs u hu' => H1 s hs u (List.mem_cons_of_mem _ hu'))
        (fun u hu' v hv' => H2 u (List.mem_cons_of_mem _ hu') v (List.mem_cons_of_mem _ hv'))
      constructor
      · simp only [rlRunCalls, hstep, ihf, List.length_cons]
        rw [List.range_succ_eq_map, List.map_cons, List.map_map]
        congr 1
        · simp [hcase]
        · apply List.map_congr_left
          intro i _
          simp only [Function.comp_apply]
          rw [decide_eq_decide]
          omega
      · simp only [rlRunCalls, hstep, ihs]
        rw [Nat.sub_eq_zero_of_le hcase]
        simp
    · rw [if_neg hcase] at hstep
      have hr' : (mget (mset store (userId ++ ":" ++ ty) (r ++ [t]))
          (userId ++ ":" ++ ty)).getD [] = r ++ [t] := by
        rw [mget_mset_self]
        rfl
      have H1' : ∀ s ∈ r ++ [t], ∀ u ∈ ts, u - s < W := by
        intro s hs u hu'
        rcases List.mem_append.mp hs with hsr | hst
        · exact H1 s hsr u (List.mem_cons_of_mem _ hu')
        · rw [List.mem_singleton.mp hst]
          exact H2 t (List.mem_cons_self _ _) u (List.mem_cons_of_mem _ hu')
      obtain ⟨ihf, ihs⟩ := ih (mset store (userId ++ ":" ++ ty) (r ++ [t])) (r ++ [t]) hr' H1'
        (fun u hu' v hv' => H2 u (List.mem_cons_of_mem _ hu') v (List.mem_cons_of_mem _ hv'))
      constructor
      · simp only [rlRunCalls, hstep, ihf, List.length_cons]
        rw [List.range_succ_eq_map, List.map_cons, List.map_map]
        congr 1
        · simp [hcase]
        · apply List.map_congr_left
          intro i _
          simp only [Function.comp_apply, List.length_append, List.length_singleton]
          rw [decide_eq_decide]
          omega
      · simp only [rlRunCalls, hstep, ihs]
        have hsucc : L - r.length = (L - (r.length + 1)) + 1 := by omega
        rw [hsucc, List.take_succ_cons, List.append_assoc]
        simp

/-- C1: for every principal and configured action class with limit `L` and
window `W`, among `isRateLimited` calls whose recorded timestamps all fall
inside one window `W`, the first `L` calls return not-limited (each appending
the call time to the store) and every further call in the window returns
limited without recording: the verdict of call `i` (0-based) is
`decide (L ≤ i)` and the final store holds exactly the first `L` call times. -/
theorem isRateLimited_window_admits (rl : RLConfig) (userId ty : String)
    (store : List (String × List Nat)) (times : List Nat) (L W : Nat)
    (hu : (userId == "") = false)
    (hLd : mget rl.limits ty = some L) (hL : L ≠ 0)
    (hWd : (mget rl.windows ty).getD 0 * 1000 = W)
    (hstart : mget store (userId ++ ":" ++ ty) = none)
    (hwin : ∀ u ∈ times, ∀ v ∈ times, v - u < W) :
    (rlRunCalls rl userId ty store times).fst
        = (List.range times.length).map (fun i => decide (L ≤ i))
      ∧ (mget (rlRunCalls rl userId ty store times).snd (userId ++ ":" ++ ty)).getD []
        = times.take L := by
  have h0 : (mget store (userId ++ ":" ++ ty)).getD [] = ([] : List Nat) := by
    rw [hstart]
    rfl
  obtain ⟨hf, hs⟩ := rlRunCalls_go rl userId ty L W hu (by rw [hLd]; rfl) hWd hL
    times store [] h0 (by intro s hs; cases hs) hwin
  refine ⟨?_, ?_⟩
  · rw [hf]
    apply List.map_congr_left
    intro i _
    simp only [List.length_nil]
    rw [decide_eq_decide]
    omega
  · rw [hs]
    simp

/-- Witness for C1 at the spec scenario: principal `"u1"` sends 11 `"commands"`
actions inside 60s with limit 10 and window 60s; calls 1-10 are admitted and
call 11 is limited. -/
theorem isRateLimited_window_admits_witness :
    (rlRunCalls rlDefault "u1" "commands" []
        [0, 1000, 2000, 3000, 4000, 5000, 6000, 7000, 8000, 9000, 10000]).fst
      = [false, false, false, false, false, false, false, false, false, false, true] :=
  (isRateLimited_window_admits rlDefault "u1" "commands" []
      [0, 1000, 2000, 3000, 4000, 5000, 6000, 7000, 8000, 9000, 10000] 10 60000
      (by decide) (by decide) (by decide) (by decide) (by decide)
      (by decide)).left.trans (by decide)

/-! ## ErrorHandler (src/middleware/errorHandler.js)

Circuit breakers live in a `Map` keyed `circuit_${category}`; the config is
the constructor literal. -/

inductive BreakerState where
  | CLOSED
  | OPEN
  | HALF_OPEN
deriving DecidableEq

structure Circuit where
  failures : Nat
  lastFailure : Nat
  state : BreakerState
  nextAttempt : Nat
deriving DecidableEq

/-- The circuit freshly created for an unseen category. -/
def initialCircuit : Circuit :=
  { failures := 0, lastFailure := 0, state := .CLOSED, nextAttempt := 0 }

structure EHConfig where
  circuitBreakerThreshold : Nat
  circuitBreakerTimeout : Nat
  retryAttempts : Nat
  retryDelay : Nat

/-- `this.config` of the error handler: threshold 5, breaker timeout 60s,
3 retries, base delay 1s. -/
def ehConfig : EHConfig :=
  { circuitBreakerThreshold := 5, circuitBreakerTimeout := 60000,
    retryAttempts := 3, retryDelay := 1000 }

/-- Return value of `checkCircuitBreaker`. -/
structure CircuitCheck where
  isOpen : Bool
  state : BreakerState
  failures : Nat
  nextAttempt : Nat
deriving DecidableEq

/-- The circuit currently stored for a category (a fresh one if absent),
as read by both breaker methods. -/
def currentCircuit (breakers : List (String × Circuit)) (category : String) : Circuit :=
  (mget breakers ("circuit_" ++ category)).getD initialCircuit

/-- `ErrorHandler.checkCircuitBreaker(category)`: create the circuit if
missing, transition OPEN → HALF_OPEN once `now ≥ nextAttempt`, and report
`isOpen` on the (possibly transitioned) state. -/
def checkCircuitBreaker (now : Nat) (breakers : List (String × Circuit))
    (category : String) : CircuitCheck × List (String × Circuit) :=
  let key := "circuit_" ++ category
  let circuit := (mget breakers key).getD initialCircuit
  let circuit :=
    if circuit.state = .OPEN ∧ circuit.nextAttempt ≤ now then
      { circuit with state := .HALF_OPEN }
    else circuit
  ({ isOpen := decide (circuit.state = .OPEN), state := circuit.state,
     failures := circuit.failures, nextAttempt := circuit.nextAttempt },
   mset breakers key circuit)

/-- `ErrorHandler.updateCircuitBreaker(category, isFailure)`: on failure,
increment `failures` and open the circuit at the threshold; on success while
HALF_OPEN, close and reset. -/
def updateCircuitBreaker (now : Nat) (breakers : List (String × Circuit))
    (category : String) (isFailure : Bool) : List (String × Circuit) :=
  let key := "circuit_" ++ category
  let circuit := (mget breakers key).getD initialCircuit
  let circuit :=
    if isFailure then
      let c := { circuit with failures := circuit.failures + 1, lastFailure := now }
      if ehConfig.circuitBreakerThreshold ≤ c.failures then
        { c with state := .OPEN, nextAttempt := now + ehConfig.circuitBreakerTimeout }
      else c
    else
      if circuit.state = .HALF_OPEN then
        { circuit with state := .CLOSED, failures := 0 }
      else circuit
  mset breakers key circuit

/-- C2: the per-category circuit breaker state-machine contract.  For the
stored circuit `c` of any category: recording a failure increments the
failure count and, once it reaches the threshold 5, sets the state to OPEN
with `nextAttempt = now + breakerTimeout` (60000); a state check reports
`isOpen` exactly while the state is OPEN and `now < nextAttempt`; a check at
or after `nextAttempt` stores the HALF_OPEN transition; a success recorded
while HALF_OPEN stores state CLOSED with `failures = 0`. -/
theorem circuitBreaker_state_machine (breakers : List (String × Circuit))
    (category : String) (now : Nat) :
    (mget (updateCircuitBreaker now breakers category true) ("circuit_" ++ category)
        = some (if 5 ≤ (currentCircuit breakers category).failures + 1 then
            { currentCircuit breakers category with
              failures := (currentCircuit breakers category).failures + 1,
              lastFailure := now, state := .OPEN, nextAttempt := now + 60000 }
          else
            { currentCircuit breakers category with
              failures := (currentCircuit breakers category).failures + 1,
              lastFailure := now }))
  ∧ ((checkCircuitBreaker now breakers category).fst.isOpen
        = (decide ((currentCircuit breakers category).state = .OPEN)
            && decide (now < (currentCircuit breakers category).nextAttempt)))
  ∧ (mget (checkCircuitBreaker now breakers category).snd ("circuit_" ++ category)
        = some (if (currentCircuit breakers category).state = .OPEN
              ∧ (currentCircuit breakers category).nextAttempt ≤ now then
            { currentCircuit breakers category with state := .HALF_OPEN }
          else currentCircuit breakers category))
  ∧ (mget (updateCircuitBreaker now breakers category false) ("circuit_" ++ category)
        = some (if (currentCircuit breakers category).state = .HALF_OPEN then
            { currentCircuit breakers category with state := .CLOSED, failures := 0 }
          else currentCircuit breakers category)) := by
  refine ⟨?_, ?_, ?_, ?_⟩
  · simp only [updateCircuitBreaker, currentCircuit, ehConfig, mget_mset_self, if_true]
  · simp only [checkCircuitBreaker, currentCircuit]
    split <;> rename_i h
    · simp [h.1, Nat.not_lt_of_le h.2]
    · by_cases hs : ((mget breakers ("circuit_" ++ category)).getD initialCircuit).state = .OPEN
      · have hn : now < ((mget breakers ("circuit_" ++ category)).getD initialCircuit).nextAttempt := by
          by_contra hc
          exact h ⟨hs, Nat.le_of_not_lt hc⟩
        simp [hs, hn]
      · simp [hs]
  · simp only [checkCircuitBreaker, currentCircuit, mget_mset_self]
  · simp only [updateCircuitBreaker, currentCircuit, mget_mset_self]
    split <;> simp_all

/-! ## Error classification (src/middleware/errorHandler.js)

A JS `Error` object as the classifier sees it: `message`, optional `code`,
and `name` (`"Error"` for a plain `new Error(msg)`). -/

structure JsError where
  message : String
  code : Option String
  name : String

/-- `this.config.errorCategories`, in object-literal insertion order. -/
def errorCategories : List (String × List String) :=
  [("NETWORK", ["ECONNREFUSED", "ENOTFOUND", "TIMEOUT"]),
   ("DATABASE", ["MongoError", "ValidationError", "CastError"]),
   ("WHATSAPP", ["DISCONNECTED", "AUTHENTICATION_FAILURE", "RATE_LIMITED"]),
   ("VALIDATION", ["INVALID_INPUT", "MALICIOUS_PATTERN"]),
   ("SYSTEM", ["ENOMEM", "ENOSPC", "EMFILE"])]

/-- `ErrorHandler.categorizeError`: match the lowercased concatenation
`message + code + name` against the category keyword sets (JS string
concatenation renders an undefined `code` as `"undefined"`). -/
def categorizeError (e : JsError) : String :=
  let errorString := jsToLower (e.message ++ e.code.getD "undefined" ++ e.name)
  match errorCategories.find?
      (fun cp => cp.snd.any (fun pat => strIncludes errorString (jsToLower pat))) with
  | some cp => cp.fst
  | none => "UNKNOWN"

/-- `ErrorHandler.determinePriority` (1 = LOW .. 4 = CRITICAL).  The HIGH
branch tests the `error.code` field, not the message. -/
def determinePriority (e : JsError) : Nat :=
  if e.name = "SecurityError" ∨ strIncludes e.message "injection" then 4
  else if e.code = some "ECONNREFUSED" ∨ e.name = "MongoError" then 3
  else if e.name = "ValidationError" ∨ e.code = some "RATE_LIMITED" then 2
  else 1

/-- `ErrorHandler.isRecoverable`: everything is recoverable except the fixed
fatal code/name signals. -/
def isRecoverable (e : JsError) : Bool :=
  !(["EACCES", "EPERM", "ENOSPC", "ENOMEM",
     "SyntaxError", "ReferenceError", "TypeError"].any
      (fun pat => e.code == some pat || e.name == pat))

/-- Result of a recovery strategy. -/
structure RecoveryResult where
  success : Bool
  strategy : String
  delay : Option Nat
deriving DecidableEq

/-- `ErrorHandler.recoverNetworkError`: exponential-backoff retry with
`delay = retryDelay * 2^retryCount`. -/
def recoverNetworkError (retryCount : Nat) : RecoveryResult :=
  { success := true, strategy := "retry",
    delay := some (ehConfig.retryDelay * 2 ^ retryCount) }

/-- `new Error("ECONNREFUSED")`: message only, no `code`, name `"Error"`. -/
def econnRefusedError : JsError :=
  { message := "ECONNREFUSED", code := none, name := "Error" }

/-- C7 counterexample: classifying `Error("ECONNREFUSED")` does NOT yield
priority HIGH (3); the priority branch keys on `error.code`, which a plain
`Error` does not set, so the priority is LOW (1). -/
theorem determinePriority_econnrefused_low :
    determinePriority econnRefusedError = 1 ∧ determinePriority econnRefusedError ≠ 3 := by
  exact ⟨by decide, by decide⟩

/-- C7 amended: classifying `Error("ECONNREFUSED")` yields
`category = NETWORK`, `isRecoverable = true` and priority LOW (1, not HIGH,
since `determinePriority` tests `error.code`, unset here), and network
recovery at `retryCount = 0` returns a retry strategy with
`delay = baseDelay = retryDelay * 2^0`. -/
theorem classify_econnrefused :
    categorizeError econnRefusedError = "NETWORK"
  ∧ determinePriority econnRefusedError = 1
  ∧ isRecoverable econnRefusedError = true
  ∧ (recoverNetworkError 0).strategy = "retry"
  ∧ (recoverNetworkError 0).delay = some ehConfig.retryDelay := by
  refine ⟨by decide, by decide, by decide, rfl, by decide⟩

/-! ## SecurityManager (src/middleware/securityManager.js)

The audit-event `id` (a random UUID) and the free-form `details` object do
not influence any control flow; only the `reason` field that some call sites
put into `details` is observable in the claims, so it is kept as
`detailsReason`.  Severities are the numeric `threatLevels`
(LOW 1, MEDIUM 2, HIGH 3, CRITICAL 4).  The raw event pushed by
`createSession` has no `severity` field at all, hence `Option Nat`. -/

structure AuditEvent where
  timestamp : Nat
  userId : String
  action : String
  severity : Option Nat
  detailsReason : Option String
deriving DecidableEq

/-- A session record (the `ipAddress`, `userAgent` and `securityFlags`
metadata fields are never read by the operations under study and are
omitted). -/
structure Session where
  id : String
  userId : String
  createdAt : Nat
  lastActivity : Nat
  isActive : Bool
  rotationCount : Nat
deriving DecidableEq

structure BlockInfo where
  reason : String
  blockedAt : Nat
  blockedUntil : Nat
  blockCount : Nat
deriving DecidableEq

/-- The mutable manager state plus the constructor-set configuration
fields read by the operations. -/
structure SecState where
  activeSessions : List (String × Session)
  blockedUsers : List (String × BlockInfo)
  auditLog : List AuditEvent
  maxAuditLogSize : Nat
  sessionTimeout : Nat
  blockDuration : Nat
  maxFailedAttempts : Nat
deriving DecidableEq

/-- Constructor state: `maxAuditLogSize = 10000`, `sessionTimeout = 24h`,
`blockDuration = 30min`, `maxFailedAttempts = 5`. -/
def secManagerInit : SecState :=
  { activeSessions := [], blockedUsers := [], auditLog := [],
    maxAuditLogSize := 10000, sessionTimeout := 24 * 60 * 60 * 1000,
    blockDuration := 30 * 60 * 1000, maxFailedAttempts := 5 }

/-- The static action → severity table of `getActionSeverity`. -/
def severityMap : List (String × Nat) :=
  [("SESSION_CREATED", 1), ("SESSION_EXPIRED", 1), ("INVALID_SESSION_ACCESS", 2),
   ("SESSION_HIJACK_ATTEMPT", 3), ("RATE_LIMIT_EXCEEDED", 2),
   ("MALICIOUS_INPUT_DETECTED", 3), ("USER_BLOCKED", 3),
   ("BRUTE_FORCE_DETECTED", 3), ("SQL_INJECTION_ATTEMPT", 4),
   ("COMMAND_INJECTION_ATTEMPT", 4)]

/-- `SecurityManager.getActionSeverity`: table lookup, LOW (1) by default. -/
def getActionSeverity (action : String) : Nat :=
  (mget severityMap action).getD 1

/-- `SecurityManager.logSecurityEvent`: append the event with its resolved
severity, then trim to the most recent `maxAuditLogSize` entries
(`auditLog.slice(-maxAuditLogSize)`) when the bound is exceeded. -/
def logSecurityEvent (now : Nat) (s : SecState) (userId action : String)
    (dr : Option String) : SecState :=
  let event : AuditEvent :=
    { timestamp := now, userId := userId, action := action,
      severity := some (getActionSeverity action), detailsReason := dr }
  let log := s.auditLog ++ [event]
  let log := if s.maxAuditLogSize < log.length then jsSliceLast log s.maxAuditLogSize else log
  { s with auditLog := log }

/-- `SecurityManager.createSession`: store the fresh session (the random
UUID is the explicit `sessionId` argument) and push a raw `SESSION_CREATED`
event directly onto the audit log — without severity and without the
`logSecurityEvent` size trim. -/
def createSession (now : Nat) (s : SecState) (userId sessionId : String) :
    String × SecState :=
  let session : Session :=
    { id := sessionId, userId := userId, createdAt := now, lastActivity := now,
      isActive := true, rotationCount := 0 }
  (sessionId,
   { s with activeSessions := mset s.activeSessions sessionId session,
            auditLog := s.auditLog ++
              [{ timestamp := now, userId := userId, action := "SESSION_CREATED",
                 severity := none, detailsReason := none }] })

/-- `SecurityManager.expireSession`: mark inactive (observable only through
the log, since the record is deleted), log, and remove from the live map. -/
def expireSession (now : Nat) (s : SecState) (sessionId reason : String) : SecState :=
  match mget s.activeSessions sessionId with
  | none => s
  | some session =>
    let s := logSecurityEvent now s session.userId "SESSION_EXPIRED" (some reason)
    { s with activeSessions := mdel s.activeSessions sessionId }

/-- Return value of `validateSession`. -/
structure SessionValidation where
  isValid : Bool
  reason : Option String
  session : Option Session
deriving DecidableEq

/-- `SecurityManager.validateSession`: not-found / mismatch / inactive /
expired checks in source order; on success refresh `lastActivity`. -/
def validateSession (now : Nat) (s : SecState) (sessionId userId : String) :
    SessionValidation × SecState :=
  match mget s.activeSessions sessionId with
  | none =>
    ({ isValid := false, reason := some "Session not found", session := none },
     logSecurityEvent now s userId "INVALID_SESSION_ACCESS" none)
  | some session =>
    if session.userId ≠ userId then
      ({ isValid := false, reason := some "Session mismatch", session := none },
       logSecurityEvent now s userId "SESSION_HIJACK_ATTEMPT" none)
    else if !session.isActive then
      ({ isValid := false, reason := some "Session inactive", session := none },
       logSecurityEvent now s userId "INACTIVE_SESSION_ACCESS" none)
    else if s.sessionTimeout < now - session.createdAt then
      ({ isValid := false, reason := some "Session expired", session := none },
       expireSession now s sessionId "timeout")
    else
      let session := { session with lastActivity := now }
      ({ isValid := true, reason := none, session := some session },
       { s with activeSessions := mset s.activeSessions sessionId session })

/-- Return value of `isUserBlocked`. -/
structure BlockStatus where
  isBlocked : Bool
  reason : Option String
  blockedUntil : Option Nat
  remainingTime : Option Nat
deriving DecidableEq

/-- `SecurityManager.unblockUser`: delete the record (if any) and log. -/
def unblockUser (now : Nat) (s : SecState) (userId reason : String) : SecState :=
  match mget s.blockedUsers userId with
  | none => s
  | some _ =>
    let s := { s with blockedUsers := mdel s.blockedUsers userId }
    logSecurityEvent now s userId "USER_UNBLOCKED" (some reason)

/-- `SecurityManager.isUserBlocked`: auto-unblock with reason `"timeout"`
once `now > blockedUntil`, otherwise report the remaining time. -/
def isUserBlocked (now : Nat) (s : SecState) (userId : String) :
    BlockStatus × SecState :=
  match mget s.blockedUsers userId with
  | none =>
    ({ isBlocked := false, reason := none, blockedUntil := none,
       remainingTime := none }, s)
  | some blockInfo =>
    if blockInfo.blockedUntil < now then
      ({ isBlocked := false, reason := none, blockedUntil := none,
         remainingTime := none }, unblockUser now s userId "timeout")
    else
      ({ isBlocked := true, reason := some blockInfo.reason,
         blockedUntil := some blockInfo.blockedUntil,
         remainingTime := some (blockInfo.blockedUntil - now) }, s)

/-- `SecurityManager.blockUser`: `duration || blockDuration` (JS `||`
treats 0 as falsy), `blockCount` = count of the current record + 1, store, log. -/
def blockUser (now : Nat) (s : SecState) (userId reason : String)
    (duration : Option Nat) : BlockInfo × SecState :=
  let blockDuration := if duration.getD 0 = 0 then s.blockDuration else duration.getD 0
  let blockedUntil := now + blockDuration
  let blockInfo : BlockInfo :=
    { reason := reason, blockedAt := now, blockedUntil := blockedUntil,
      blockCount := ((mget s.blockedUsers userId).map (·.blockCount)).getD 0 + 1 }
  let s := { s with blockedUsers := mset s.blockedUsers userId blockInfo }
  (blockInfo, logSecurityEvent now s userId "USER_BLOCKED" (some reason))

/-- `SecurityManager.getRecentEvents`: the events of the user with
`timestamp ≥ now − timeWindow`. -/
def getRecentEvents (now : Nat) (s : SecState) (userId : String)
    (timeWindow : Nat) : List AuditEvent :=
  let cutoff := now - timeWindow
  s.auditLog.filter (fun e => e.userId == userId && cutoff ≤ e.timestamp)

/-- A threat finding (its `details.count` kept as `count`). -/
structure ThreatFinding where
  type : String
  severity : Nat
  count : Nat
deriving DecidableEq

/-- `SecurityManager.analyzeSecurityThreats`: over the last 5 minutes of events of the user
of events, flag `> 10` same-action events (RAPID_ACTIONS, HIGH),
`> maxFailedAttempts` FAILED/INVALID events (MULTIPLE_FAILURES, HIGH) and
`> 5` SESSION events (SESSION_ANOMALY, MEDIUM). -/
def analyzeSecurityThreats (now : Nat) (s : SecState) (userId action : String) :
    List ThreatFinding :=
  let recentEvents := getRecentEvents now s userId (5 * 60 * 1000)
  let actionCount := (recentEvents.filter (fun e => e.action == action)).length
  let rapid :=
    if 10 < actionCount then
      [{ type := "RAPID_ACTIONS", severity := 3, count := actionCount }]
    else []
  let failedEvents := recentEvents.filter
    (fun e => strIncludes e.action "FAILED" || strIncludes e.action "INVALID")
  let failures :=
    if s.maxFailedAttempts < failedEvents.length then
      [{ type := "MULTIPLE_FAILURES", severity := 3, count := failedEvents.length }]
    else []
  let sessionEvents := recentEvents.filter (fun e => strIncludes e.action "SESSION")
  let anomalies :=
    if 5 < sessionEvents.length then
      [{ type := "SESSION_ANOMALY", severity := 2, count := sessionEvents.length }]
    else []
  rapid ++ failures ++ anomalies

/-- Result of `encrypt`. -/
structure EncResult where
  encrypted : String
  iv : String
  algorithm : String
deriving DecidableEq

/-- `SecurityManager.encrypt`: `cipherFn` models the external
`crypto.createCipher(algorithm, key)` composed with `update`/`final`
(ciphertext as a function of algorithm, key and plaintext), `stringify`
models `JSON.stringify`, and the fresh IV bytes (`crypto.randomBytes(16)`)
are an explicit argument.  As in the source, the IV is returned in the
result but never handed to the cipher. -/
def encrypt (cipherFn : String → String → String → String) (stringify : α → String)
    (key : String) (ivBytes : String) (data : α) : EncResult :=
  { encrypted := cipherFn "aes-256-cbc" key (stringify data),
    iv := ivBytes, algorithm := "aes-256-cbc" }

/-- `SecurityManager.decrypt`: destructures `{encrypted, iv}` but feeds only
`encrypted` to the external `crypto.createDecipher(algorithm, key)` pipeline
(`decipherFn`); `parse` models `JSON.parse`, with `none` for a throw. -/
def decrypt (decipherFn : String → String → String → String)
    (parse : String → Option α) (key : String) (enc : EncResult) : Option α :=
  parse (decipherFn "aes-256-cbc" key enc.encrypted)

theorem logSecurityEvent_blockedUsers (now : Nat) (s : SecState) (u a : String)
    (dr : Option String) :
    (logSecurityEvent now s u a dr).blockedUsers = s.blockedUsers := rfl

theorem logSecurityEvent_activeSessions (now : Nat) (s : SecState) (u a : String)
    (dr : Option String) :
    (logSecurityEvent now s u a dr).activeSessions = s.activeSessions := rfl

theorem logSecurityEvent_maxAuditLogSize (now : Nat) (s : SecState) (u a : String)
    (dr : Option String) :
    (logSecurityEvent now s u a dr).maxAuditLogSize = s.maxAuditLogSize := rfl

theorem logSecurityEvent_sessionTimeout (now : Nat) (s : SecState) (u a : String)
    (dr : Option String) :
    (logSecurityEvent now s u a dr).sessionTimeout = s.sessionTimeout := rfl

theorem logSecurityEvent_auditLog (now : Nat) (s : SecState) (u a : String)
    (dr : Option String) :
    (logSecurityEvent now s u a dr).auditLog
      = jsSliceLast (s.auditLog ++
          [{ timestamp := now, userId := u, action := a,
             severity := some (getActionSeverity a), detailsReason := dr }])
          s.maxAuditLogSize := by
  simp only [logSecurityEvent]
  split <;> rename_i h
  · rfl
  · unfold jsSliceLast
    split <;> rename_i h0
    · rfl
    · rw [Nat.sub_eq_zero_of_le (Nat.le_of_not_lt h)]
      exact (List.drop_zero _).symm

theorem logSecurityEvent_getLast (now : Nat) (s : SecState) (u a : String)
    (dr : Option String) :
    (logSecurityEvent now s u a dr).auditLog.getLast?
      = some { timestamp := now, userId := u, action := a,
               severity := some (getActionSeverity a), detailsReason := dr } := by
  rw [logSecurityEvent_auditLog]
  exact getLast?_jsSliceLast_append _ _ _

/-- C3: blocking a principal for `d` milliseconds makes an immediate
`isUserBlocked` report blocked with the given reason, `blockedUntil = now + d`
and `remainingTime = d`; once more than `d` has elapsed, `isUserBlocked`
reports not-blocked, removes the record from the store, and logs the
auto-unblock with reason `"timeout"`. -/
theorem blockUser_isUserBlocked_lifecycle (s : SecState) (userId reason : String)
    (d now nowLater : Nat) (hd : d ≠ 0) (hlater : now + d < nowLater) :
    ((isUserBlocked now (blockUser now s userId reason (some d)).snd userId).fst
        = { isBlocked := true, reason := some reason, blockedUntil := some (now + d),
            remainingTime := some d })
  ∧ ((isUserBlocked nowLater (blockUser now s userId reason (some d)).snd userId).fst.isBlocked
        = false)
  ∧ (mget (isUserBlocked nowLater (blockUser now s userId reason (some d)).snd
        userId).snd.blockedUsers userId = none)
  ∧ ((isUserBlocked nowLater (blockUser now s userId reason (some d)).snd
        userId).snd.auditLog.getLast?
        = some { timestamp := nowLater, userId := userId, action := "USER_UNBLOCKED",
                 severity := some (getActionSeverity "USER_UNBLOCKED"),
                 detailsReason := some "timeout" }) := by
  have hfst : (blockUser now s userId reason (some d)).fst
      = { reason := reason, blockedAt := now, blockedUntil := now + d,
          blockCount := ((mget s.blockedUsers userId).map (·.blockCount)).getD 0 + 1 } := by
    simp only [blockUser, Option.getD_some, if_neg hd]
  have hsnd : (blockUser now s userId reason (some d)).snd
      = logSecurityEvent now { s with blockedUsers := mset s.blockedUsers userId ((blockUser now s userId reason (some d)).fst) } userId "USER_BLOCKED" (some reason) := by
    simp only [blockUser, Option.getD_some, if_neg hd]
  have hget : mget (blockUser now s userId reason (some d)).snd.blockedUsers userId
      = some { reason := reason, blockedAt := now, blockedUntil := now + d,
               blockCount := ((mget s.blockedUsers userId).map (·.blockCount)).getD 0 + 1 } := by
    rw [hsnd, logSecurityEvent_blockedUsers, mget_mset_self, hfst]
  have hnotpast : ¬ (now + d < now) := by omega
  have hsnd2 : (isUserBlocked nowLater (blockUser now s userId reason (some d)).snd userId).snd
      = logSecurityEvent nowLater
          { (blockUser now s userId reason (some d)).snd with
            blockedUsers := mdel (blockUser now s userId reason (some d)).snd.blockedUsers userId }
          userId "USER_UNBLOCKED" (some "timeout") := by
    simp only [isUserBlocked, hget, unblockUser, if_pos hlater]
  refine ⟨?_, ?_, ?_, ?_⟩
  · simp only [isUserBlocked, hget, if_neg hnotpast]
    simp [Nat.add_sub_cancel_left]
  · simp only [isUserBlocked, hget, if_pos hlater]
  · rw [hsnd2, logSecurityEvent_blockedUsers]
    exact mget_mdel_self _ _
  · rw [hsnd2]
    exact logSecurityEvent_getLast _ _ _ _ _

/-- Witness for C3 at a concrete run: block `"mallory"` for 1000ms at time 0,
query at time 0 and at time 1001. -/
theorem blockUser_isUserBlocked_lifecycle_witness :
    ((isUserBlocked 0 (blockUser 0 secManagerInit "mallory" "spam" (some 1000)).snd "mallory").fst
        = { isBlocked := true, reason := some "spam", blockedUntil := some 1000,
            remainingTime := some 1000 })
  ∧ ((isUserBlocked 1001 (blockUser 0 secManagerInit "mallory" "spam" (some 1000)).snd
        "mallory").fst.isBlocked = false)
  ∧ (mget (isUserBlocked 1001 (blockUser 0 secManagerInit "mallory" "spam" (some 1000)).snd
        "mallory").snd.blockedUsers "mallory" = none)
  ∧ ((isUserBlocked 1001 (blockUser 0 secManagerInit "mallory" "spam" (some 1000)).snd
        "mallory").snd.auditLog.getLast?
        = some { timestamp := 1001, userId := "mallory", action := "USER_UNBLOCKED",
                 severity := some 1, detailsReason := some "timeout" }) :=
  blockUser_isUserBlocked_lifecycle secManagerInit "mallory" "spam" 1000 0 1001
    (by decide) (by decide)

/-- C4: evaluation of the code at the failing input of the test shipped with
the repository (tests/security.test.js, escalating block durations): after
`blockUser` / `unblockUser(reason="manual")` / `blockUser`, the second block
stores `blockCount = 1`, not a value greater than the count stored by the first block —
any unblock deletes the record, so the count restarts. -/
theorem blockCount_resets_after_any_unblock :
    ((blockUser 0 secManagerInit "repeat-violator" "First violation"
        (some 1000)).fst.blockCount = 1)
  ∧ ((blockUser 2000
        (unblockUser 1000
          (blockUser 0 secManagerInit "repeat-violator" "First violation" (some 1000)).snd
          "repeat-violator" "manual")
        "repeat-violator" "Second violation" (some 1000)).fst.blockCount = 1) :=
  ⟨by decide, by decide⟩

/-- C5: validating a session created for `p1` with a different caller-asserted
principal `p2` fails with reason `"Session mismatch"`, appends a
`SESSION_HIJACK_ATTEMPT` audit event whose resolved severity is HIGH (3),
and leaves the session usable by `p1` (a later validation by `p1` within the
session timeout succeeds). -/
theorem validateSession_mismatch_audit (s : SecState) (p1 p2 sid : String)
    (now now2 now3 : Nat) (hne : p1 ≠ p2) (hv : now3 - now ≤ s.sessionTimeout) :
    ((validateSession now2 (createSession now s p1 sid).snd sid p2).fst
        = { isValid := false, reason := some "Session mismatch", session := none })
  ∧ ((validateSession now3 (validateSession now2 (createSession now s p1 sid).snd sid p2).snd
        sid p1).fst.isValid = true)
  ∧ ((validateSession now2 (createSession now s p1 sid).snd sid p2).snd.auditLog.getLast?
        = some { timestamp := now2, userId := p2, action := "SESSION_HIJACK_ATTEMPT",
                 severity := some (getActionSeverity "SESSION_HIJACK_ATTEMPT"),
                 detailsReason := none })
  ∧ (getActionSeverity "SESSION_HIJACK_ATTEMPT" = 3) := by
  have hsess : mget (createSession now s p1 sid).snd.activeSessions sid
      = some { id := sid, userId := p1, createdAt := now, lastActivity := now,
               isActive := true, rotationCount := 0 } := by
    simp only [createSession]
    exact mget_mset_self _ _ _
  have hval2 : validateSession now2 (createSession now s p1 sid).snd sid p2
      = ({ isValid := false, reason := some "Session mismatch", session := none },
         logSecurityEvent now2 (createSession now s p1 sid).snd p2
           "SESSION_HIJACK_ATTEMPT" none) := by
    simp only [validateSession, hsess]
    rw [if_pos hne]
  have hsess2 : mget (validateSession now2 (createSession now s p1 sid).snd sid
      p2).snd.activeSessions sid
      = some { id := sid, userId := p1, createdAt := now, lastActivity := now,
               isActive := true, rotationCount := 0 } := by
    rw [hval2, logSecurityEvent_activeSessions]
    exact hsess
  have hst2 : (validateSession now2 (createSession now s p1 sid).snd sid
      p2).snd.sessionTimeout = s.sessionTimeout := by
    rw [hval2]
    rfl
  refine ⟨?_, ?_, ?_, rfl⟩
  · rw [hval2]
  · set s2 := (validateSession now2 (createSession now s p1 sid).snd sid p2).snd with hs2def
    simp only [validateSession, hsess2]
    rw [if_neg (show ¬ (p1 ≠ p1) from fun h => h rfl)]
    simp only [Bool.not_true, Bool.false_eq_true, if_false]
    rw [hst2, if_neg (Nat.not_lt.mpr hv)]
  · rw [hval2]
    exact logSecurityEvent_getLast _ _ _ _ _

/-- Witness for C5: session created for `"alice"` at time 0, probed by
`"eve"` at time 5, then validated again by `"alice"` at time 9. -/
theorem validateSession_mismatch_audit_witness :
    ((validateSession 5 (createSession 0 secManagerInit "alice" "s-1").snd "s-1" "eve").fst
        = { isValid := false, reason := some "Session mismatch", session := none })
  ∧ ((validateSession 9 (validateSession 5 (createSession 0 secManagerInit "alice" "s-1").snd
        "s-1" "eve").snd "s-1" "alice").fst.isValid = true)
  ∧ ((validateSession 5 (createSession 0 secManagerInit "alice" "s-1").snd "s-1"
        "eve").snd.auditLog.getLast?
        = some { timestamp := 5, userId := "eve", action := "SESSION_HIJACK_ATTEMPT",
                 severity := some 3, detailsReason := none })
  ∧ (getActionSeverity "SESSION_HIJACK_ATTEMPT" = 3) :=
  validateSession_mismatch_audit secManagerInit "alice" "eve" "s-1" 0 5 9
    (by decide) (by decide)

theorem jsSliceLast_append_single (l : List α) (e : α) (n : Nat) :
    jsSliceLast (jsSliceLast l n ++ [e]) n = jsSliceLast (l ++ [e]) n := by
  unfold jsSliceLast
  by_cases h0 : n = 0
  · simp [h0]
  · simp only [h0, if_false]
    by_cases hl : l.length ≤ n
    · rw [Nat.sub_eq_zero_of_le hl, List.drop_zero]
    · have hlen : (l.drop (l.length - n)).length = n := by
        rw [List.length_drop]
        omega
      have e1 : (l.drop (l.length - n) ++ [e]).length - n = 1 := by
        rw [List.length_append, hlen, List.length_singleton]
        omega
      have e2 : (l ++ [e]).length - n = (l.length - n) + 1 := by
        rw [List.length_append, List.length_singleton]
        omega
      rw [e1, e2]
      rw [List.drop_append_of_le_length (by rw [hlen]; omega)]
      rw [List.drop_append_of_le_length (by omega : l.length - n + 1 ≤ l.length)]
      rw [List.drop_drop]

/-- The audit event built by one `logSecurityEvent(userId, action)` call
(no `details.reason` passed). -/
def mkAuditEvent (entry : Nat × String × String) : AuditEvent :=
  { timestamp := entry.fst, userId := entry.snd.fst, action := entry.snd.snd,
    severity := some (getActionSeverity entry.snd.snd), detailsReason := none }

/-- A sequence of `logSecurityEvent` calls, one per `(now, userId, action)`
entry, threading the state. -/
def logEvents (s : SecState) (entries : List (Nat × String × String)) : SecState :=
  entries.foldl (fun st e => logSecurityEvent e.fst st e.snd.fst e.snd.snd none) s

theorem logEvents_auditLog (s : SecState) (entries : List (Nat × String × String))
    (hfix : jsSliceLast s.auditLog s.maxAuditLogSize = s.auditLog) :
    (logEvents s entries).auditLog
        = jsSliceLast (s.auditLog ++ entries.map mkAuditEvent) s.maxAuditLogSize
      ∧ (logEvents s entries).maxAuditLogSize = s.maxAuditLogSize := by
  induction entries using List.reverseRecOn with
  | nil =>
    refine ⟨?_, rfl⟩
    simp only [logEvents, List.foldl_nil, List.map_nil, List.append_nil]
    exact hfix.symm
  | append_singleton es e ih =>
    obtain ⟨ih1, ih2⟩ := ih
    have hstep : logEvents s (es ++ [e])
        = logSecurityEvent e.fst (logEvents s es) e.snd.fst e.snd.snd none := by
      simp [logEvents, List.foldl_append]
    refine ⟨?_, ?_⟩
    · rw [hstep, logSecurityEvent_auditLog, ih2, ih1, jsSliceLast_append_single,
        List.map_append, ← List.append_assoc]
      rfl
    · rw [hstep, logSecurityEvent_maxAuditLogSize, ih2]

/-- A dummy audit event used to pre-fill logs in concrete scenarios. -/
def dummyEvent : AuditEvent :=
  { timestamp := 0, userId := "u", action := "X", severity := some 1,
    detailsReason := none }

/-- A state whose audit log already holds exactly `maxAuditLogSize` (10000)
events. -/
def fullAuditState : SecState :=
  { secManagerInit with auditLog := List.replicate 10000 dummyEvent }

/-- C6 counterexample: `createSession` pushes its `SESSION_CREATED` event
directly onto the audit log without the `logSecurityEvent` trim, so a
session created while the log already holds `maxAuditLogSize` events leaves
it with `maxAuditLogSize + 1` events — the claimed bound does not hold after
every operation. -/
theorem createSession_exceeds_audit_bound :
    fullAuditState.maxAuditLogSize
      < (createSession 1 fullAuditState "u" "sid").snd.auditLog.length := by
  have h1 : (createSession 1 fullAuditState "u" "sid").snd.auditLog
      = fullAuditState.auditLog
        ++ [{ timestamp := 1, userId := "u", action := "SESSION_CREATED",
              severity := none, detailsReason := none }] := rfl
  rw [h1, List.length_append, List.length_singleton]
  rw [show fullAuditState.auditLog = List.replicate 10000 dummyEvent from rfl,
    List.length_replicate]
  rw [show fullAuditState.maxAuditLogSize = 10000 from rfl]
  omega

/-- C6 amended: after any sequence of `logSecurityEvent` insertions from an
empty log, the audit log holds exactly the most recent `maxAuditLogSize`
events (oldest evicted first, FIFO) and never exceeds the bound — but only
`logSecurityEvent` enforces this; `createSession` appends without trimming
(see the counterexample). -/
theorem logSecurityEvent_bounded_fifo (s0 : SecState)
    (entries : List (Nat × String × String))
    (h0 : s0.auditLog = []) (hmax : 1 ≤ s0.maxAuditLogSize) :
    ((logEvents s0 entries).auditLog
        = (entries.map mkAuditEvent).drop (entries.length - s0.maxAuditLogSize))
  ∧ (logEvents s0 entries).auditLog.length ≤ s0.maxAuditLogSize := by
  have hne0 : ¬ (s0.maxAuditLogSize = 0) := by omega
  have hfix : jsSliceLast s0.auditLog s0.maxAuditLogSize = s0.auditLog := by
    rw [h0]
    unfold jsSliceLast
    split <;> simp
  obtain ⟨h1, _⟩ := logEvents_auditLog s0 entries hfix
  rw [h0, List.nil_append] at h1
  unfold jsSliceLast at h1
  rw [if_neg hne0, List.length_map] at h1
  refine ⟨h1, ?_⟩
  rw [h1, List.length_drop, List.length_map]
  omega

/-- Entries for the C6 witness run. -/
def fifoEntries : List (Nat × String × String) :=
  [(1, "u", "A"), (2, "u", "B"), (3, "u", "C"), (4, "u", "D"), (5, "u", "E")]

/-- A manager state configured with `maxAuditLogSize = 3` and an empty log. -/
def smallAuditState : SecState :=
  { secManagerInit with maxAuditLogSize := 3 }

/-- Witness for the amended C6: inserting 5 events with bound 3 keeps exactly
the 3 most recent. -/
theorem logSecurityEvent_bounded_fifo_witness :
    ((logEvents smallAuditState fifoEntries).auditLog
        = (fifoEntries.map mkAuditEvent).drop
            (fifoEntries.length - smallAuditState.maxAuditLogSize))
  ∧ (logEvents smallAuditState fifoEntries).auditLog.length
      ≤ smallAuditState.maxAuditLogSize :=
  logSecurityEvent_bounded_fifo smallAuditState fifoEntries rfl (by decide)

/-- An audit event of a repeated benign action, for the C8 scenario. -/
def pingEvent : AuditEvent :=
  { timestamp := 100, userId := "u", action := "PING", severity := some 1,
    detailsReason := none }

/-- A state whose log holds exactly 10 recent same-action events for `"u"`. -/
def tenActionState : SecState :=
  { secManagerInit with auditLog := List.replicate 10 pingEvent }

/-- C8 counterexample: with exactly 10 occurrences of the same action in the
last 5 minutes (the claimed "at least 10" boundary), `analyzeSecurityThreats`
emits no finding at all — the code requires strictly more than 10. -/
theorem analyzeThreats_ten_occurrences_no_rapid :
    (((getRecentEvents 100 tenActionState "u" (5 * 60 * 1000)).filter
        (fun e => e.action == "PING")).length = 10)
  ∧ (analyzeSecurityThreats 100 tenActionState "u" "PING" = []) :=
  ⟨by decide, by decide⟩

/-- C8 amended: `analyzeSecurityThreats` emits a RAPID_ACTIONS finding (with
severity HIGH = 3 and the occurrence count) exactly when the principal has
strictly more than 10 (i.e. at least 11) occurrences of the action among its
events of the last 5 minutes; with 10 or fewer occurrences no RAPID_ACTIONS
finding is emitted. -/
theorem analyzeThreats_rapid_actions (now : Nat) (s : SecState) (u a : String) :
    ((analyzeSecurityThreats now s u a).any (fun t => t.type == "RAPID_ACTIONS")
        = decide (10 < ((getRecentEvents now s u (5 * 60 * 1000)).filter
            (fun e => e.action == a)).length))
  ∧ ((analyzeSecurityThreats now s u a).all
        (fun t => t.type != "RAPID_ACTIONS"
          || (t.severity == 3 && t.count == ((getRecentEvents now s u (5 * 60 * 1000)).filter
              (fun e => e.action == a)).length)) = true) := by
  simp only [analyzeSecurityThreats]
  constructor
  · split <;> split <;> split <;> simp_all
  · split <;> split <;> split <;> simp_all

/-- C9: the symmetric-encryption helper is effectively constant-IV.  For any
external cipher pipeline, key and plaintext, the ciphertext produced by
`encrypt` is the same for any two fresh IVs (the IV never reaches the
cipher), while the returned `iv` fields are exactly the differing fresh
IVs. -/
theorem encrypt_constant_iv (cipherFn : String → String → String → String)
    (stringify : α → String) (key iv1 iv2 : String) (data : α) :
    ((encrypt cipherFn stringify key iv1 data).encrypted
        = (encrypt cipherFn stringify key iv2 data).encrypted)
  ∧ ((encrypt cipherFn stringify key iv1 data).iv = iv1)
  ∧ ((encrypt cipherFn stringify key iv2 data).iv = iv2)
  ∧ (iv1 ≠ iv2 →
      (encrypt cipherFn stringify key iv1 data).iv
        ≠ (encrypt cipherFn stringify key iv2 data).iv) :=
  ⟨rfl, rfl, rfl, fun h => h⟩

/-- Witness for C9: two encryptions of `"data"` under distinct IVs yield the
same ciphertext but distinct `iv` fields. -/
theorem encrypt_constant_iv_witness :
    ((encrypt (fun _ _ m => m) id "k" "00" "data").encrypted
        = (encrypt (fun _ _ m => m) id "k" "ff" "data").encrypted)
  ∧ ((encrypt (fun _ _ m => m) id "k" "00" "data").iv = "00")
  ∧ ((encrypt (fun _ _ m => m) id "k" "ff" "data").iv = "ff")
  ∧ ((encrypt (fun _ _ m => m) id "k" "00" "data").iv
        ≠ (encrypt (fun _ _ m => m) id "k" "ff" "data").iv) :=
  have h := encrypt_constant_iv (fun _ _ m => m) (id : String → String) "k" "00" "ff" "data"
  ⟨h.1, h.2.1, h.2.2.1, h.2.2.2 (by decide)⟩

/-- C10: round-trip.  Whenever the external decipher pipeline inverts the
cipher pipeline under the same key and `parse` inverts `stringify`
(JSON-serializability of the value), decrypting the result of `encrypt`
on the same key recovers the value — for every IV, since neither side uses
the `iv` field. -/
theorem decrypt_encrypt_roundtrip (cipherFn decipherFn : String → String → String → String)
    (stringify : α → String) (parse : String → Option α) (key iv : String) (x : α)
    (hcrypto : ∀ m, decipherFn "aes-256-cbc" key (cipherFn "aes-256-cbc" key m) = m)
    (hjson : ∀ v, parse (stringify v) = some v) :
    decrypt decipherFn parse key (encrypt cipherFn stringify key iv x) = some x := by
  simp [encrypt, decrypt, hcrypto, hjson]

/-- Witness for C10 at concrete inverse pipelines. -/
theorem decrypt_encrypt_roundtrip_witness :
    decrypt (fun _ _ c => c) (fun s => some s) "k"
      (encrypt (fun _ _ m => m) (fun s => s) "k" "iv" "payload") = some "payload" :=
  decrypt_encrypt_roundtrip (fun _ _ m => m) (fun _ _ c => c) (fun s => s)
    (fun s => some s) "k" "iv" "payload" (fun _ => rfl) (fun _ => rfl)
